import Mathlib

/-!
Verification of the transcript normalizer in `tools/transcript_to_markdown.py`.

The development shallowly embeds the script's core functions — `coerce_text`,
`normalize_tool_name`, `extract_body`, `normalize_role`, `add_usage` and the
line loop of `iter_turns` — over a model of parsed JSON values, and proves the
documented properties about them.

Modelling conventions:
- `Json` models a value produced by `json.loads`: JSON numbers that Python
  reads as `int` are `Json.int`; other numerals (floats) are carried opaquely
  as their literal text in `Json.num`.  A Python `dict` is the ordered
  association list of its entries with distinct keys, a `str` is a `String`,
  and `None` is `Json.null`.
- Python `set` objects (the metadata sets and the two tool-use id sets) are
  modelled as `Finset String`; Python dicts used only through `get`/item
  assignment (`role_counts`, `usage_counts`) as ordered association lists.
- Python string methods (`strip`, `lower`, `capitalize`, `startswith`, `<`)
  are re-implemented over `List Char` with their Python (code-point) meaning.
- The stderr diagnostics of the line loop are modelled as the list of 1-based
  line numbers reported, returned alongside the final state.
- Input lines are modelled after the lexical layer: a line is blank after
  stripping, fails `json.loads` with a decode error, or parses to a JSON
  mapping.  (A line parsing to a non-mapping JSON value makes the script
  raise `AttributeError` at `event.get` and is outside the model, as is a
  non-string truthy `role` value, on which `normalize_role` would raise at
  `.strip()`; such a role is treated as absent.)
-/

/-- A parsed JSON value as `json.loads` produces it. -/
inductive Json where
  | null
  | bool (b : Bool)
  | int (n : Int)
  | num (lit : String)
  | str (s : String)
  | arr (xs : List Json)
  | obj (fields : List (String × Json))

/-- `d.get(k)` on a parsed JSON mapping: the value of the first (only) entry
named `k`, if any. -/
def findField (fs : List (String × Json)) (k : String) : Option Json :=
  match fs with
  | [] => none
  | (k0, v) :: rest => if k0 = k then some v else findField rest k

/-- `d.get(k)`: absent keys give Python `None`, i.e. `Json.null`. -/
def jget (fs : List (String × Json)) (k : String) : Json :=
  (findField fs k).getD Json.null

/-- `d.get(k, default)`. -/
def jget_default (fs : List (String × Json)) (k : String) (d : Json) : Json :=
  (findField fs k).getD d

/-- Python `str.strip()` (whitespace from both ends). -/
def pyStrip (s : String) : String :=
  ⟨((s.data.dropWhile Char.isWhitespace).reverse.dropWhile Char.isWhitespace).reverse⟩

/-- Python `str.lower()` (ASCII range, which is all the script compares). -/
def pyLower (s : String) : String :=
  ⟨s.data.map Char.toLower⟩

/-- Python `str.capitalize()`: first character upper-cased, rest lower-cased. -/
def pyCapitalize (s : String) : String :=
  match s.data with
  | [] => ""
  | c :: rest => ⟨c.toUpper :: rest.map Char.toLower⟩

/-- Python `a or b` specialised to strings: `b` when `a` is empty. -/
def py_or_str (a b : String) : String :=
  if a = "" then b else a

/-- Code-point-wise list comparison, as Python compares strings. -/
def charsLt : List Char → List Char → Bool
  | [], ys => !ys.isEmpty
  | _ :: _, [] => false
  | x :: xs, y :: ys => x < y || (x = y && charsLt xs ys)

/-- Python `a < b` on strings (lexicographic over code points). -/
def pyStrLt (a b : String) : Bool :=
  charsLt a.data b.data

/-- Whether one character list is an initial segment of another. -/
def charsStartWith : List Char → List Char → Bool
  | [], _ => true
  | _ :: _, [] => false
  | p :: ps, c :: cs => p = c && charsStartWith ps cs

/-- Python `s.startswith(p)`. -/
def pyStartsWith (s p : String) : Bool :=
  charsStartWith p.data s.data

/-- Python `s[n:]` by characters. -/
def pyDrop (s : String) (n : Nat) : String :=
  ⟨s.data.drop n⟩

/-- One escaped character of a JSON string literal as `json.dumps` writes it
(`ensure_ascii=False`). -/
def json_escape_char (c : Char) : String :=
  if c = '\\' then "\\\\"
  else if c = '"' then "\\\""
  else if c = '\n' then "\\n"
  else if c = '\t' then "\\t"
  else if c = '\r' then "\\r"
  else ⟨[c]⟩

/-- A double-quoted JSON string literal. -/
def json_quote (s : String) : String :=
  "\"" ++ String.join (s.data.map json_escape_char) ++ "\""

/-- The indentation written by `json.dumps(..., indent=2)` at nesting level
`lvl`. -/
def indent_pad (lvl : Nat) : String :=
  ⟨List.replicate (2 * lvl) ' '⟩

mutual
/-- `json.dumps(value, ensure_ascii=False, indent=2)`, with `lvl` the current
nesting level (the script always calls it at the top level, `lvl = 0`). -/
def json_dumps (lvl : Nat) : Json → String
  | .null => "null"
  | .bool b => if b then "true" else "false"
  | .int n => toString n
  | .num lit => lit
  | .str s => json_quote s
  | .arr [] => "[]"
  | .arr (x :: xs) =>
    "[\n" ++ String.intercalate ",\n" (json_dumps_list (lvl + 1) (x :: xs))
      ++ "\n" ++ indent_pad lvl ++ "]"
  | .obj [] => "\x7b\x7d"
  | .obj (f :: fs) =>
    "\x7b\n" ++ String.intercalate ",\n" (json_dumps_fields (lvl + 1) (f :: fs))
      ++ "\n" ++ indent_pad lvl ++ "\x7d"

def json_dumps_list (lvl : Nat) : List Json → List String
  | [] => []
  | x :: xs => (indent_pad lvl ++ json_dumps lvl x) :: json_dumps_list lvl xs

def json_dumps_fields (lvl : Nat) : List (String × Json) → List String
  | [] => []
  | (k, v) :: fs =>
    (indent_pad lvl ++ json_quote k ++ ": " ++ json_dumps lvl v) :: json_dumps_fields lvl fs
end

/-- The single-quote character, kept out of literals. -/
def squote : String := ⟨[Char.ofNat 39]⟩

/-- One escaped character of a Python single-quoted `repr` literal. -/
def repr_escape_char (c : Char) : String :=
  if c = '\\' then "\\\\"
  else if c = Char.ofNat 39 then "\\" ++ squote
  else if c = '\n' then "\\n"
  else if c = '\t' then "\\t"
  else if c = '\r' then "\\r"
  else ⟨[c]⟩

/-- A single-quoted Python string `repr`. -/
def repr_quote (s : String) : String :=
  squote ++ String.join (s.data.map repr_escape_char) ++ squote

mutual
/-- Python `repr` of a parsed JSON value (reached by `str` only on lists and
dicts, an unexercised corner of the script). -/
def py_repr : Json → String
  | .null => "None"
  | .bool b => if b then "True" else "False"
  | .int n => toString n
  | .num lit => lit
  | .str s => repr_quote s
  | .arr xs => "[" ++ String.intercalate ", " (py_repr_list xs) ++ "]"
  | .obj fs => "\x7b" ++ String.intercalate ", " (py_repr_fields fs) ++ "\x7d"

def py_repr_list : List Json → List String
  | [] => []
  | x :: xs => py_repr x :: py_repr_list xs

def py_repr_fields : List (String × Json) → List String
  | [] => []
  | (k, v) :: fs => (repr_quote k ++ ": " ++ py_repr v) :: py_repr_fields fs
end

/-- Python `str(value)` on a parsed JSON value. -/
def py_str : Json → String
  | .str s => s
  | .null => "None"
  | .bool b => if b then "True" else "False"
  | .int n => toString n
  | .num lit => lit
  | v => py_repr v

/-- The `"text" in value and isinstance(value["text"], str)` test of
`coerce_text`, returning the text when it applies. -/
def find_text_string (fs : List (String × Json)) : Option String :=
  match findField fs "text" with
  | some (.str t) => some t
  | _ => none

mutual
/-- `coerce_text` of the script: best-effort flattening of one content value
into a string. -/
def coerce_text : Json → String
  | .null => ""
  | .str s => s
  | .arr xs =>
    String.intercalate "\n" ((coerce_text_list xs).filter (fun chunk => pyStrip chunk ≠ ""))
  | .obj fields =>
    match find_text_string fields with
    | some t => t
    | none =>
      match coerce_text_content fields with
      | some s => s
      | none => json_dumps 0 (.obj fields)
  | .bool b => if b then "True" else "False"
  | .int n => toString n
  | .num lit => lit

def coerce_text_list : List Json → List String
  | [] => []
  | x :: xs => coerce_text x :: coerce_text_list xs

/-- The `"content" in value` branch of `coerce_text`: recurse into the value
of the `content` key when the key is present. -/
def coerce_text_content : List (String × Json) → Option String
  | [] => none
  | (k, v) :: rest => if k = "content" then some (coerce_text v) else coerce_text_content rest
end

/-- `normalize_tool_name` of the script. -/
def normalize_tool_name (name : String) : String :=
  let normalized := pyStrip name
  if pyStartsWith (pyLower normalized) "tool:" then pyDrop normalized 5 else normalized

/-- `normalize_role` of the script.  A non-string `role` value in a message is
passed here as `none` (see the module comment). -/
def normalize_role (raw_role : Option String) (fallback : String) : String :=
  let role := pyLower (pyStrip (py_or_str (py_or_str (raw_role.getD "") fallback) "unknown"))
  if role = "assistant" then "Assistant"
  else if role = "user" then "User"
  else if role = "system" then "System"
  else py_or_str (pyCapitalize role) "Unknown"

/-- The filtering configuration handed to `iter_turns` by the CLI layer
(already normalized: `only_tools` and `excluded_tools` hold normalized tool
names, and `include_tools` is forced on when either set is non-empty). -/
structure Config where
  include_thinking : Bool
  include_tools : Bool
  only_tools : Finset String
  excluded_tools : Finset String

/-- The two stream-scoped identifier sets of the tool correlator:
`globally_excluded_tool_use_ids` and `globally_included_tool_use_ids`. -/
structure ToolIds where
  excluded : Finset String
  included : Finset String

/-- Record a `tool_use` id in the excluded set, exactly under the source's
guard `isinstance(tool_use_id, str) and tool_use_id`. -/
def record_excluded (ids : ToolIds) : Json → ToolIds
  | .str s => if s ≠ "" then { ids with excluded := insert s ids.excluded } else ids
  | _ => ids

/-- Record a `tool_use` id in the included set, under the same guard. -/
def record_included (ids : ToolIds) : Json → ToolIds
  | .str s => if s ≠ "" then { ids with included := insert s ids.included } else ids
  | _ => ids

/-- The `tool_use_id in globally_excluded_tool_use_ids` test of the
`tool_result` branch (false for a non-string reference). -/
def ref_in_excluded (ids : ToolIds) : Json → Bool
  | .str s => s ∈ ids.excluded
  | _ => false

/-- The `isinstance(tool_use_id, str) and tool_use_id in
globally_included_tool_use_ids` test of the `tool_result` branch. -/
def ref_in_included (ids : ToolIds) : Json → Bool
  | .str s => s ∈ ids.included
  | _ => false

/-- Append a fragment to `parts` when `keep` holds (the `if text:` pattern). -/
def push_if (parts : List String) (keep : Bool) (s : String) : List String :=
  if keep then parts ++ [s] else parts

/-- The `tool_use` branch of the content-item loop: name filtering, id
recording, and the rendered fenced block when the tool is kept. -/
def tool_use_step (cfg : Config) (acc : List String × ToolIds)
    (fields : List (String × Json)) : List String × ToolIds :=
  if cfg.include_tools then
    let name := normalize_tool_name (py_str (jget_default fields "name" (.str "unknown_tool")))
    let tool_use_id := jget fields "id"
    if cfg.only_tools ≠ ∅ ∧ name ∉ cfg.only_tools then
      (acc.1, record_excluded acc.2 tool_use_id)
    else if name ∈ cfg.excluded_tools then
      (acc.1, record_excluded acc.2 tool_use_id)
    else
      let rendered := json_dumps 0 (jget fields "input")
      (acc.1 ++ ["```tool:" ++ name ++ "\n" ++ rendered ++ "\n```"],
        record_included acc.2 tool_use_id)
  else acc

/-- The `tool_result` branch of the content-item loop: correlation lookup by
the referenced id, then the rendered fenced block when kept and non-empty. -/
def tool_result_step (cfg : Config) (acc : List String × ToolIds)
    (fields : List (String × Json)) : List String × ToolIds :=
  if cfg.include_tools then
    let tool_use_id := jget fields "tool_use_id"
    if ref_in_excluded acc.2 tool_use_id then acc
    else if cfg.only_tools ≠ ∅ ∧ ¬ ref_in_included acc.2 tool_use_id then acc
    else
      let result := pyStrip (coerce_text (jget fields "content"))
      (push_if acc.1 (result ≠ "") ("```tool_result\n" ++ result ++ "\n```"), acc.2)
  else acc

/-- One iteration of the `for item in content:` loop of `extract_body`,
threading the collected fragments and the two global id sets. -/
def extract_body_item (cfg : Config) (acc : List String × ToolIds) (item : Json) :
    List String × ToolIds :=
  match item with
  | .obj fields =>
    match findField fields "type" with
    | some (.str "text") =>
      let t := pyStrip (coerce_text (jget fields "text"))
      (push_if acc.1 (t ≠ "") t, acc.2)
    | some (.str "thinking") =>
      if cfg.include_thinking then
        let t := pyStrip (coerce_text (jget fields "thinking"))
        (push_if acc.1 (t ≠ "") ("```thinking\n" ++ t ++ "\n```"), acc.2)
      else acc
    | some (.str "tool_use") => tool_use_step cfg acc fields
    | some (.str "tool_result") => tool_result_step cfg acc fields
    | _ =>
      let t := pyStrip (coerce_text (.obj fields))
      (push_if acc.1 (t ≠ "") t, acc.2)
  | other =>
    let t := pyStrip (coerce_text other)
    (push_if acc.1 (t ≠ "") t, acc.2)

/-- The whole `for item in content:` loop. -/
def extract_body_items (cfg : Config) (acc : List String × ToolIds) :
    List Json → List String × ToolIds
  | [] => acc
  | item :: rest => extract_body_items cfg (extract_body_item cfg acc item) rest

/-- `extract_body` of the script: the rendered body of one message's content,
together with the updated global id sets. -/
def extract_body (cfg : Config) (ids : ToolIds) (content : Json) : String × ToolIds :=
  match content with
  | .str s => (pyStrip s, ids)
  | .arr items =>
    let r := extract_body_items cfg ([], ids) items
    (pyStrip (String.intercalate "\n\n" r.1), r.2)
  | other => (pyStrip (coerce_text other), ids)

/-- `usage_counts[k] = usage_counts.get(k, 0) + v` on an ordered association
list (in-place update of an existing key, else appended like a fresh dict
entry). -/
def upd_add {α : Type} [Add α] : List (String × α) → String → α → List (String × α)
  | [], k, v => [(k, v)]
  | (k0, v0) :: rest, k, v =>
    if k0 = k then (k0, v0 + v) :: rest else (k0, v0) :: upd_add rest k v

/-- Lookup with the dict default `0`. -/
def lookup0 (m : List (String × Int)) (k : String) : Int :=
  match m with
  | [] => 0
  | (k0, v) :: rest => if k0 = k then v else lookup0 rest k

/-- The dotted key path `f"{prefix}.{key}" if prefix else str(key)`. -/
def dotted_key (pre : String) (k : String) : String :=
  if pre = "" then k else pre ++ "." ++ k

mutual
/-- `add_usage` of the script: recursively walk a usage value, adding integer
leaves into the running totals keyed by dotted path.  Booleans are skipped
before the integer test (mirroring Python's `bool`-before-`int` checks), and
all other leaves fall through silently.  The in-place mutation of
`usage_counts` is expressed by state passing, with the walk over a mapping's
entries written as a composition of the entry updates (head entry first,
exactly the source's iteration order). -/
def add_usage (pre : String) : Json → List (String × Int) → List (String × Int)
  | .obj fields => add_usage_fields pre fields
  | .bool _ => fun counts => counts
  | .int n => fun counts => upd_add counts pre n
  | _ => fun counts => counts

def add_usage_fields (pre : String) :
    List (String × Json) → List (String × Int) → List (String × Int)
  | [] => fun counts => counts
  | (k, v) :: rest => add_usage_fields pre rest ∘ add_usage (dotted_key pre k) v
end

/-- One output turn. -/
structure Turn where
  index : Nat
  role : String
  timestamp : Json
  body : String

/-- The accumulating state of `iter_turns`: the locals of its line loop
(including the two tool-correlation id sets). -/
structure ParseState where
  turns : List Turn
  first_timestamp : Option String
  last_timestamp : Option String
  session_ids : Finset String
  models : Finset String
  versions : Finset String
  cwd_values : Finset String
  branches : Finset String
  role_counts : List (String × Nat)
  usage_counts : List (String × Int)
  usage_records : Nat
  tool_ids : ToolIds

/-- One input line, seen after the lexical layer: blank after `strip`, a
`json.JSONDecodeError`, or a line parsed to a JSON mapping. -/
inductive Line where
  | blank
  | malformed
  | ok (event : List (String × Json))

/-- Add a scalar metadata value to its set under the source's
`isinstance(v, str) and v` guard. -/
def collect_scalar (s : Finset String) : Option Json → Finset String
  | some (.str v) => if v ≠ "" then insert v s else s
  | _ => s

/-- The first/last timestamp updates (lexical string min/max, only for string
timestamps). -/
def update_timestamps (st : ParseState) : Option Json → ParseState
  | some (.str ts) =>
    { st with
      first_timestamp := some (match st.first_timestamp with
        | none => ts
        | some f => if pyStrLt ts f then ts else f),
      last_timestamp := some (match st.last_timestamp with
        | none => ts
        | some l => if pyStrLt l ts then ts else l) }
  | _ => st

/-- The metadata collection performed for every parsed event, before the
event-type gate. -/
def collect_meta (st : ParseState) (event : List (String × Json)) : ParseState :=
  let st1 := update_timestamps st (findField event "timestamp")
  { st1 with
    session_ids := collect_scalar st1.session_ids (findField event "sessionId"),
    versions := collect_scalar st1.versions (findField event "version"),
    cwd_values := collect_scalar st1.cwd_values (findField event "cwd"),
    branches := collect_scalar st1.branches (findField event "gitBranch") }

/-- The `event.get("type") in {"user", "assistant"}` gate. -/
def event_type_is_turn (event : List (String × Json)) : Bool :=
  match findField event "type" with
  | some (.str "user") => true
  | some (.str "assistant") => true
  | _ => false

/-- The event type as the string handed to `normalize_role` as fallback
(always `"user"` or `"assistant"` where it is used). -/
def event_type_string (event : List (String × Json)) : String :=
  match findField event "type" with
  | some (.str s) => s
  | _ => ""

/-- The `isinstance(message, dict)` extraction of an event's message. -/
def message_obj (event : List (String × Json)) : Option (List (String × Json)) :=
  match findField event "message" with
  | some (.obj msg) => some msg
  | _ => none

/-- A message's `role` value when it is a string (see the module comment). -/
def role_string (msg : List (String × Json)) : Option String :=
  match findField msg "role" with
  | some (.str s) => some s
  | _ => none

/-- Python truthiness of a parsed JSON value (a JSON numeral is falsy exactly
when its mantissa has no non-zero digit). -/
def py_truthy : Json → Bool
  | .null => false
  | .bool b => b
  | .int n => n ≠ 0
  | .num lit =>
    (lit.data.takeWhile (fun c => ¬ (c = 'e' ∨ c = 'E'))).any
      (fun c => '1' ≤ c && c ≤ '9')
  | .str s => s ≠ ""
  | .arr xs => ¬ xs.isEmpty
  | .obj fs => ¬ fs.isEmpty

/-- `event.get("timestamp") or message.get("timestamp")`. -/
def turn_timestamp (event msg : List (String × Json)) : Json :=
  let et := jget event "timestamp"
  if py_truthy et then et else jget msg "timestamp"

/-- The usage bookkeeping of one message: bump the record count and fold the
usage mapping into the totals when `message.get("usage")` is a mapping. -/
def process_usage (st : ParseState) (msg : List (String × Json)) : ParseState :=
  match findField msg "usage" with
  | some (.obj u) =>
    { st with
      usage_records := st.usage_records + 1,
      usage_counts := add_usage "" (.obj u) st.usage_counts }
  | _ => st

/-- The per-message tail of the line loop: model collection, usage
bookkeeping, body extraction, and — only for a non-empty body — the role
count bump and the appended turn. -/
def message_phase (cfg : Config) (st : ParseState) (event msg : List (String × Json)) :
    ParseState :=
  let st1 := process_usage { st with models := collect_scalar st.models (findField msg "model") } msg
  let role := normalize_role (role_string msg) (event_type_string event)
  let r := extract_body cfg st1.tool_ids (jget msg "content")
  let st2 := { st1 with tool_ids := r.2 }
  if r.1 = "" then st2
  else
    { st2 with
      role_counts := upd_add st2.role_counts role 1,
      turns := st2.turns ++ [⟨st2.turns.length + 1, role, turn_timestamp event msg, r.1⟩] }

/-- One iteration of the line loop of `iter_turns` (the state effect; the
stderr diagnostic of a malformed line is collected by `run_lines`). -/
def process_line (cfg : Config) (st : ParseState) : Line → ParseState
  | .ok event =>
    let st1 := collect_meta st event
    if event_type_is_turn event then
      match message_obj event with
      | some msg => message_phase cfg st1 event msg
      | none => st1
    else st1
  | _ => st

/-- The line loop from line number `n` on: the final state, paired with the
1-based line numbers reported to stderr for malformed lines. -/
def run_lines (cfg : Config) (st : ParseState) (n : Nat) : List Line → ParseState × List Nat
  | [] => (st, [])
  | l :: rest =>
    let r := run_lines cfg (process_line cfg st l) (n + 1) rest
    match l with
    | .malformed => (r.1, n :: r.2)
    | _ => r

/-- The initial state of the line loop. -/
def init_state : ParseState :=
  ⟨[], none, none, ∅, ∅, ∅, ∅, ∅, [], [], 0, ⟨∅, ∅⟩⟩

/-- `iter_turns` of the script: the final aggregate state (the fields of the
returned `ParseResult`) and the stderr diagnostics. -/
def iter_turns (cfg : Config) (lines : List Line) : ParseState × List Nat :=
  run_lines cfg init_state 1 lines

/-! ### Derived observations used to state the claims -/

/-- The usage payload of a message, when `message.get("usage")` is a mapping. -/
def usage_of_message (msg : List (String × Json)) : Option Json :=
  match findField msg "usage" with
  | some (.obj u) => some (.obj u)
  | _ => none

/-- Whether one line, processed with the given correlation sets, emits a
turn: a `user`/`assistant` event whose message is a mapping and whose
extracted body is non-empty. -/
def line_emits (cfg : Config) (ids : ToolIds) : Line → Bool
  | .ok event =>
    event_type_is_turn event &&
      (match message_obj event with
       | some msg => decide ((extract_body cfg ids (jget msg "content")).1 ≠ "")
       | none => false)
  | _ => false

/-- The correlation sets after one line (only body extraction touches them,
and it runs exactly for `user`/`assistant` events with mapping messages). -/
def ids_step (cfg : Config) (ids : ToolIds) : Line → ToolIds
  | .ok event =>
    if event_type_is_turn event then
      match message_obj event with
      | some msg => (extract_body cfg ids (jget msg "content")).2
      | none => ids
    else ids
  | _ => ids

/-- The number of turn-emitting lines of a stream, threading the correlation
sets from line to line. -/
def count_emitted (cfg : Config) (ids : ToolIds) : List Line → Nat
  | [] => 0
  | l :: rest =>
    (if line_emits cfg ids l then 1 else 0) + count_emitted cfg (ids_step cfg ids l) rest

/-- The usage payload a line contributes: present exactly for `user`/
`assistant` events whose message is a mapping carrying a usage mapping. -/
def line_usage : Line → Option Json
  | .ok event =>
    if event_type_is_turn event then
      match message_obj event with
      | some msg => usage_of_message msg
      | none => none
    else none
  | _ => none

/-- How many lines carry a usage payload. -/
def count_usage_events (ls : List Line) : Nat :=
  ls.countP (fun l => (line_usage l).isSome)

mutual
/-- Specification-side description of the integer leaves `add_usage` totals:
each non-boolean integer leaf of the usage value, tagged with its full dotted
key path.  Booleans and all other leaf shapes contribute nothing. -/
def usage_leaves (pre : String) : Json → List (String × Int)
  | .obj fields => usage_leaves_fields pre fields
  | .bool _ => []
  | .int n => [(pre, n)]
  | _ => []

def usage_leaves_fields (pre : String) : List (String × Json) → List (String × Int)
  | [] => []
  | (k, v) :: rest => usage_leaves (dotted_key pre k) v ++ usage_leaves_fields pre rest
end

/-- The total of the integer leaves of `v` whose dotted path is `k`. -/
def leaf_total (k : String) (pre : String) (v : Json) : Int :=
  (((usage_leaves pre v).filter (fun p => p.1 == k)).map Prod.snd).sum

/-- Same, over a field list. -/
def fields_leaf_total (k : String) (pre : String) (fs : List (String × Json)) : Int :=
  (((usage_leaves_fields pre fs).filter (fun p => p.1 == k)).map Prod.snd).sum

/-- What one line adds to the usage total at dotted key `k`. -/
def line_leaf_total (k : String) (l : Line) : Int :=
  match line_usage l with
  | some u => leaf_total k "" u
  | none => 0

/-- The 1-based positions of the malformed lines, starting at line `n`. -/
def malformed_line_numbers (n : Nat) : List Line → List Nat
  | [] => []
  | .malformed :: rest => n :: malformed_line_numbers (n + 1) rest
  | _ :: rest => malformed_line_numbers (n + 1) rest

/-- Lines that do not fail parsing. -/
def well_formed : Line → Bool
  | .malformed => false
  | _ => true

/-- The set of non-empty string values of scalar field `key` over all parsed
events, regardless of event type. -/
def scalar_set (key : String) (acc : Finset String) : List Line → Finset String
  | [] => acc
  | .ok event :: rest => scalar_set key (collect_scalar acc (findField event key)) rest
  | _ :: rest => scalar_set key acc rest

/-- The set of non-empty string `model` values over `user`/`assistant` events
whose message is a mapping (the only place the script reads `model`). -/
def model_set (acc : Finset String) : List Line → Finset String
  | [] => acc
  | l :: rest =>
    match l with
    | .ok event =>
      if event_type_is_turn event then
        match message_obj event with
        | some msg => model_set (collect_scalar acc (findField msg "model")) rest
        | none => model_set acc rest
      else model_set acc rest
    | _ => model_set acc rest

/-- A `tool_use` content item with the given name, identifier and input. -/
def tool_use_item (name id : String) (input : Json) : Json :=
  .obj [("type", .str "tool_use"), ("name", .str name), ("id", .str id), ("input", input)]

/-- A `tool_result` content item referencing the given identifier. -/
def tool_result_item (id : String) (content : Json) : Json :=
  .obj [("type", .str "tool_result"), ("tool_use_id", .str id), ("content", content)]

/-! ### Concrete inputs for witnesses and counterexamples -/

/-- A configuration with all filtering off. -/
def cfg_plain : Config := ⟨false, false, ∅, ∅⟩

/-- Tools included, with `Read` deny-listed. -/
def cfg_deny : Config := ⟨false, true, ∅, {"Read"}⟩

/-- Tools included, with an allow-list containing only `Bash`. -/
def cfg_allow : Config := ⟨false, true, {"Bash"}, ∅⟩

/-- A plain user event with string content. -/
def demo_user_event : List (String × Json) :=
  [("type", .str "user"),
   ("message", .obj [("role", .str "user"), ("content", .str "hi"),
                     ("usage", .obj [("input_tokens", .int 10),
                                     ("cache", .obj [("read", .int 5)])])])]

/-- An assistant event with list content. -/
def demo_assistant_event : List (String × Json) :=
  [("type", .str "assistant"),
   ("message", .obj [("role", .str "assistant"),
                     ("content", .arr [.obj [("type", .str "text"), ("text", .str "hello")]])])]

/-- A short demo stream: a turn, a blank line, a malformed line, a turn. -/
def demo_lines : List Line :=
  [.ok demo_user_event, .blank, .malformed, .ok demo_assistant_event]

/-- A `system` event carrying a message with a model name: the script never
reads `model` from it because the event fails the type gate. -/
def c6_event : List (String × Json) :=
  [("type", .str "system"), ("sessionId", .str "s1"),
   ("message", .obj [("model", .str "m1"), ("content", .str "note")])]

/-- A nested sequence: content `[["a", "b"]]`. -/
def c7_content : Json := .arr [.arr [.str "a", .str "b"]]

/-- Entries of a mapping without a type tag that has both a string `text`
entry and a `content` entry. -/
def c8_fields : List (String × Json) := [("text", .str "hi"), ("content", .str "nested")]

/-- That mapping as a content value. -/
def c8_map : Json := .obj c8_fields

/-! ### Component lemmas for the line loop -/

theorem update_timestamps_turns (st : ParseState) (v : Option Json) :
    (update_timestamps st v).turns = st.turns := by
  unfold update_timestamps; split <;> rfl

theorem update_timestamps_role_counts (st : ParseState) (v : Option Json) :
    (update_timestamps st v).role_counts = st.role_counts := by
  unfold update_timestamps; split <;> rfl

theorem update_timestamps_usage_counts (st : ParseState) (v : Option Json) :
    (update_timestamps st v).usage_counts = st.usage_counts := by
  unfold update_timestamps; split <;> rfl

theorem update_timestamps_usage_records (st : ParseState) (v : Option Json) :
    (update_timestamps st v).usage_records = st.usage_records := by
  unfold update_timestamps; split <;> rfl

theorem update_timestamps_tool_ids (st : ParseState) (v : Option Json) :
    (update_timestamps st v).tool_ids = st.tool_ids := by
  unfold update_timestamps; split <;> rfl

theorem update_timestamps_session_ids (st : ParseState) (v : Option Json) :
    (update_timestamps st v).session_ids = st.session_ids := by
  unfold update_timestamps; split <;> rfl

theorem update_timestamps_models (st : ParseState) (v : Option Json) :
    (update_timestamps st v).models = st.models := by
  unfold update_timestamps; split <;> rfl

theorem update_timestamps_versions (st : ParseState) (v : Option Json) :
    (update_timestamps st v).versions = st.versions := by
  unfold update_timestamps; split <;> rfl

theorem update_timestamps_cwd_values (st : ParseState) (v : Option Json) :
    (update_timestamps st v).cwd_values = st.cwd_values := by
  unfold update_timestamps; split <;> rfl

theorem update_timestamps_branches (st : ParseState) (v : Option Json) :
    (update_timestamps st v).branches = st.branches := by
  unfold update_timestamps; split <;> rfl

theorem collect_meta_turns (st : ParseState) (e : List (String × Json)) :
    (collect_meta st e).turns = st.turns := by
  simp [collect_meta, update_timestamps_turns]

theorem collect_meta_role_counts (st : ParseState) (e : List (String × Json)) :
    (collect_meta st e).role_counts = st.role_counts := by
  simp [collect_meta, update_timestamps_role_counts]

theorem collect_meta_usage_counts (st : ParseState) (e : List (String × Json)) :
    (collect_meta st e).usage_counts = st.usage_counts := by
  simp [collect_meta, update_timestamps_usage_counts]

theorem collect_meta_usage_records (st : ParseState) (e : List (String × Json)) :
    (collect_meta st e).usage_records = st.usage_records := by
  simp [collect_meta, update_timestamps_usage_records]

theorem collect_meta_tool_ids (st : ParseState) (e : List (String × Json)) :
    (collect_meta st e).tool_ids = st.tool_ids := by
  simp [collect_meta, update_timestamps_tool_ids]

theorem collect_meta_models (st : ParseState) (e : List (String × Json)) :
    (collect_meta st e).models = st.models := by
  simp [collect_meta, update_timestamps_models]

theorem collect_meta_session_ids (st : ParseState) (e : List (String × Json)) :
    (collect_meta st e).session_ids = collect_scalar st.session_ids (findField e "sessionId") := by
  simp [collect_meta, update_timestamps_session_ids]

theorem collect_meta_versions (st : ParseState) (e : List (String × Json)) :
    (collect_meta st e).versions = collect_scalar st.versions (findField e "version") := by
  simp [collect_meta, update_timestamps_versions]

theorem collect_meta_cwd_values (st : ParseState) (e : List (String × Json)) :
    (collect_meta st e).cwd_values = collect_scalar st.cwd_values (findField e "cwd") := by
  simp [collect_meta, update_timestamps_cwd_values]

theorem collect_meta_branches (st : ParseState) (e : List (String × Json)) :
    (collect_meta st e).branches = collect_scalar st.branches (findField e "gitBranch") := by
  simp [collect_meta, update_timestamps_branches]

theorem process_usage_turns (st : ParseState) (msg : List (String × Json)) :
    (process_usage st msg).turns = st.turns := by
  unfold process_usage; split <;> rfl

theorem process_usage_role_counts (st : ParseState) (msg : List (String × Json)) :
    (process_usage st msg).role_counts = st.role_counts := by
  unfold process_usage; split <;> rfl

theorem process_usage_tool_ids (st : ParseState) (msg : List (String × Json)) :
    (process_usage st msg).tool_ids = st.tool_ids := by
  unfold process_usage; split <;> rfl

theorem process_usage_models (st : ParseState) (msg : List (String × Json)) :
    (process_usage st msg).models = st.models := by
  unfold process_usage; split <;> rfl

theorem process_usage_session_ids (st : ParseState) (msg : List (String × Json)) :
    (process_usage st msg).session_ids = st.session_ids := by
  unfold process_usage; split <;> rfl

theorem process_usage_versions (st : ParseState) (msg : List (String × Json)) :
    (process_usage st msg).versions = st.versions := by
  unfold process_usage; split <;> rfl

theorem process_usage_cwd_values (st : ParseState) (msg : List (String × Json)) :
    (process_usage st msg).cwd_values = st.cwd_values := by
  unfold process_usage; split <;> rfl

theorem process_usage_branches (st : ParseState) (msg : List (String × Json)) :
    (process_usage st msg).branches = st.branches := by
  unfold process_usage; split <;> rfl

theorem process_usage_records_step (st : ParseState) (msg : List (String × Json)) :
    (process_usage st msg).usage_records
      = st.usage_records + (if (usage_of_message msg).isSome then 1 else 0) := by
  unfold process_usage usage_of_message
  split <;> simp_all

theorem process_usage_counts_step (st : ParseState) (msg : List (String × Json)) :
    (process_usage st msg).usage_counts
      = match usage_of_message msg with
        | some u => add_usage "" u st.usage_counts
        | none => st.usage_counts := by
  unfold process_usage usage_of_message
  split <;> simp_all

theorem message_phase_tool_ids (cfg : Config) (st : ParseState)
    (event msg : List (String × Json)) :
    (message_phase cfg st event msg).tool_ids
      = (extract_body cfg st.tool_ids (jget msg "content")).2 := by
  by_cases h : (extract_body cfg st.tool_ids (jget msg "content")).1 = "" <;>
    simp [message_phase, process_usage_tool_ids, h]

theorem message_phase_session_ids (cfg : Config) (st : ParseState)
    (event msg : List (String × Json)) :
    (message_phase cfg st event msg).session_ids = st.session_ids := by
  by_cases h : (extract_body cfg st.tool_ids (jget msg "content")).1 = "" <;>
    simp [message_phase, process_usage_session_ids, process_usage_tool_ids, h]

theorem message_phase_versions (cfg : Config) (st : ParseState)
    (event msg : List (String × Json)) :
    (message_phase cfg st event msg).versions = st.versions := by
  by_cases h : (extract_body cfg st.tool_ids (jget msg "content")).1 = "" <;>
    simp [message_phase, process_usage_versions, process_usage_tool_ids, h]

theorem message_phase_cwd_values (cfg : Config) (st : ParseState)
    (event msg : List (String × Json)) :
    (message_phase cfg st event msg).cwd_values = st.cwd_values := by
  by_cases h : (extract_body cfg st.tool_ids (jget msg "content")).1 = "" <;>
    simp [message_phase, process_usage_cwd_values, process_usage_tool_ids, h]

theorem message_phase_branches (cfg : Config) (st : ParseState)
    (event msg : List (String × Json)) :
    (message_phase cfg st event msg).branches = st.branches := by
  by_cases h : (extract_body cfg st.tool_ids (jget msg "content")).1 = "" <;>
    simp [message_phase, process_usage_branches, process_usage_tool_ids, h]

theorem message_phase_models (cfg : Config) (st : ParseState)
    (event msg : List (String × Json)) :
    (message_phase cfg st event msg).models
      = collect_scalar st.models (findField msg "model") := by
  by_cases h : (extract_body cfg st.tool_ids (jget msg "content")).1 = "" <;>
    simp [message_phase, process_usage_models, process_usage_tool_ids, h]

theorem message_phase_usage_records (cfg : Config) (st : ParseState)
    (event msg : List (String × Json)) :
    (message_phase cfg st event msg).usage_records
      = st.usage_records + (if (usage_of_message msg).isSome then 1 else 0) := by
  by_cases h : (extract_body cfg st.tool_ids (jget msg "content")).1 = "" <;>
    simp [message_phase, process_usage_records_step, process_usage_tool_ids, h]

theorem message_phase_usage_counts (cfg : Config) (st : ParseState)
    (event msg : List (String × Json)) :
    (message_phase cfg st event msg).usage_counts
      = match usage_of_message msg with
        | some u => add_usage "" u st.usage_counts
        | none => st.usage_counts := by
  by_cases h : (extract_body cfg st.tool_ids (jget msg "content")).1 = "" <;>
    simp [message_phase, process_usage_counts_step, process_usage_tool_ids, h]

theorem message_phase_turn_step (cfg : Config) (st : ParseState)
    (event msg : List (String × Json)) :
    ((extract_body cfg st.tool_ids (jget msg "content")).1 = "" ∧
      (message_phase cfg st event msg).turns = st.turns ∧
      (message_phase cfg st event msg).role_counts = st.role_counts)
  ∨ ((extract_body cfg st.tool_ids (jget msg "content")).1 ≠ "" ∧
      (message_phase cfg st event msg).turns
        = st.turns ++ [⟨st.turns.length + 1,
            normalize_role (role_string msg) (event_type_string event),
            turn_timestamp event msg,
            (extract_body cfg st.tool_ids (jget msg "content")).1⟩] ∧
      (message_phase cfg st event msg).role_counts
        = upd_add st.role_counts (normalize_role (role_string msg) (event_type_string event)) 1) := by
  by_cases h : (extract_body cfg st.tool_ids (jget msg "content")).1 = ""
  · left
    refine ⟨h, ?_, ?_⟩ <;>
      simp [message_phase, process_usage_turns, process_usage_role_counts,
        process_usage_tool_ids, h]
  · right
    refine ⟨h, ?_, ?_⟩ <;>
      simp [message_phase, process_usage_turns, process_usage_role_counts,
        process_usage_tool_ids, h]

theorem process_line_tool_ids (cfg : Config) (st : ParseState) (l : Line) :
    (process_line cfg st l).tool_ids = ids_step cfg st.tool_ids l := by
  cases l with
  | blank => rfl
  | malformed => rfl
  | ok event =>
    by_cases hg : event_type_is_turn event
    · cases hm : message_obj event with
      | none => simp [process_line, ids_step, hg, hm, collect_meta_tool_ids]
      | some msg =>
        simp [process_line, ids_step, hg, hm, message_phase_tool_ids, collect_meta_tool_ids]
    · simp [process_line, ids_step, hg, collect_meta_tool_ids]

theorem process_line_turn_step (cfg : Config) (st : ParseState) (l : Line) :
    (line_emits cfg st.tool_ids l = false ∧
      (process_line cfg st l).turns = st.turns ∧
      (process_line cfg st l).role_counts = st.role_counts)
  ∨ (line_emits cfg st.tool_ids l = true ∧
      ∃ role ts body, body ≠ "" ∧
        (process_line cfg st l).turns = st.turns ++ [⟨st.turns.length + 1, role, ts, body⟩] ∧
        (process_line cfg st l).role_counts = upd_add st.role_counts role 1) := by
  cases l with
  | blank => left; exact ⟨rfl, rfl, rfl⟩
  | malformed => left; exact ⟨rfl, rfl, rfl⟩
  | ok event =>
    by_cases hg : event_type_is_turn event
    · cases hm : message_obj event with
      | none =>
        left
        refine ⟨?_, ?_, ?_⟩ <;>
          simp [process_line, line_emits, hg, hm, collect_meta_turns, collect_meta_role_counts]
      | some msg =>
        have hstep := message_phase_turn_step cfg (collect_meta st event) event msg
        rw [collect_meta_turns, collect_meta_role_counts, collect_meta_tool_ids] at hstep
        cases hstep with
        | inl h =>
          left
          refine ⟨?_, ?_, ?_⟩ <;>
            simp [process_line, line_emits, hg, hm, h.1, h.2.1, h.2.2]
        | inr h =>
          right
          refine ⟨?_, ?_⟩
          · simp [line_emits, hg, hm, h.1]
          · exact ⟨normalize_role (role_string msg) (event_type_string event),
              turn_timestamp event msg,
              (extract_body cfg st.tool_ids (jget msg "content")).1, h.1, by
                simpa [process_line, hg, hm] using h.2.1, by
                simpa [process_line, hg, hm] using h.2.2⟩
    · left
      refine ⟨?_, ?_, ?_⟩ <;>
        simp [process_line, line_emits, hg, collect_meta_turns, collect_meta_role_counts]

theorem process_line_turns_length (cfg : Config) (st : ParseState) (l : Line) :
    (process_line cfg st l).turns.length
      = st.turns.length + (if line_emits cfg st.tool_ids l then 1 else 0) := by
  rcases process_line_turn_step cfg st l with ⟨he, ht, _⟩ | ⟨he, role, ts, body, _, ht, _⟩ <;>
    simp [he, ht]

theorem process_line_session_ids (cfg : Config) (st : ParseState) (l : Line) :
    (process_line cfg st l).session_ids
      = match l with
        | .ok event => collect_scalar st.session_ids (findField event "sessionId")
        | _ => st.session_ids := by
  cases l with
  | blank => rfl
  | malformed => rfl
  | ok event =>
    by_cases hg : event_type_is_turn event
    · cases hm : message_obj event with
      | none => simp [process_line, hg, hm, collect_meta_session_ids]
      | some msg => simp [process_line, hg, hm, message_phase_session_ids, collect_meta_session_ids]
    · simp [process_line, hg, collect_meta_session_ids]

theorem process_line_versions (cfg : Config) (st : ParseState) (l : Line) :
    (process_line cfg st l).versions
      = match l with
        | .ok event => collect_scalar st.versions (findField event "version")
        | _ => st.versions := by
  cases l with
  | blank => rfl
  | malformed => rfl
  | ok event =>
    by_cases hg : event_type_is_turn event
    · cases hm : message_obj event with
      | none => simp [process_line, hg, hm, collect_meta_versions]
      | some msg => simp [process_line, hg, hm, message_phase_versions, collect_meta_versions]
    · simp [process_line, hg, collect_meta_versions]

theorem process_line_cwd_values (cfg : Config) (st : ParseState) (l : Line) :
    (process_line cfg st l).cwd_values
      = match l with
        | .ok event => collect_scalar st.cwd_values (findField event "cwd")
        | _ => st.cwd_values := by
  cases l with
  | blank => rfl
  | malformed => rfl
  | ok event =>
    by_cases hg : event_type_is_turn event
    · cases hm : message_obj event with
      | none => simp [process_line, hg, hm, collect_meta_cwd_values]
      | some msg => simp [process_line, hg, hm, message_phase_cwd_values, collect_meta_cwd_values]
    · simp [process_line, hg, collect_meta_cwd_values]

theorem process_line_branches (cfg : Config) (st : ParseState) (l : Line) :
    (process_line cfg st l).branches
      = match l with
        | .ok event => collect_scalar st.branches (findField event "gitBranch")
        | _ => st.branches := by
  cases l with
  | blank => rfl
  | malformed => rfl
  | ok event =>
    by_cases hg : event_type_is_turn event
    · cases hm : message_obj event with
      | none => simp [process_line, hg, hm, collect_meta_branches]
      | some msg => simp [process_line, hg, hm, message_phase_branches, collect_meta_branches]
    · simp [process_line, hg, collect_meta_branches]

theorem process_line_models (cfg : Config) (st : ParseState) (l : Line) :
    (process_line cfg st l).models
      = match l with
        | .ok event =>
          if event_type_is_turn event then
            match message_obj event with
            | some msg => collect_scalar st.models (findField msg "model")
            | none => st.models
          else st.models
        | _ => st.models := by
  cases l with
  | blank => rfl
  | malformed => rfl
  | ok event =>
    by_cases hg : event_type_is_turn event
    · cases hm : message_obj event with
      | none => simp [process_line, hg, hm, collect_meta_models]
      | some msg => simp [process_line, hg, hm, message_phase_models, collect_meta_models]
    · simp [process_line, hg, collect_meta_models]

theorem process_line_usage_records (cfg : Config) (st : ParseState) (l : Line) :
    (process_line cfg st l).usage_records
      = st.usage_records + (if (line_usage l).isSome then 1 else 0) := by
  cases l with
  | blank => rfl
  | malformed => rfl
  | ok event =>
    by_cases hg : event_type_is_turn event
    · cases hm : message_obj event with
      | none => simp [process_line, line_usage, hg, hm, collect_meta_usage_records]
      | some msg =>
        simp [process_line, line_usage, hg, hm, message_phase_usage_records,
          collect_meta_usage_records]
    · simp [process_line, line_usage, hg, collect_meta_usage_records]

theorem process_line_usage_counts (cfg : Config) (st : ParseState) (l : Line) :
    (process_line cfg st l).usage_counts
      = match line_usage l with
        | some u => add_usage "" u st.usage_counts
        | none => st.usage_counts := by
  cases l with
  | blank => rfl
  | malformed => rfl
  | ok event =>
    by_cases hg : event_type_is_turn event
    · cases hm : message_obj event with
      | none => simp [process_line, line_usage, hg, hm, collect_meta_usage_counts]
      | some msg =>
        simp [process_line, line_usage, hg, hm, message_phase_usage_counts,
          collect_meta_usage_counts]
    · simp [process_line, line_usage, hg, collect_meta_usage_counts]

theorem run_lines_cons_fst (cfg : Config) (st : ParseState) (n : Nat) (l : Line)
    (rest : List Line) :
    (run_lines cfg st n (l :: rest)).1
      = (run_lines cfg (process_line cfg st l) (n + 1) rest).1 := by
  cases l <;> rfl

theorem run_lines_snd (cfg : Config) (st : ParseState) (n : Nat) (ls : List Line) :
    (run_lines cfg st n ls).2 = malformed_line_numbers n ls := by
  induction ls generalizing st n with
  | nil => rfl
  | cons l rest ih => cases l <;> simp [run_lines, malformed_line_numbers, ih]

theorem run_lines_turns_length (cfg : Config) (st : ParseState) (n : Nat) (ls : List Line) :
    (run_lines cfg st n ls).1.turns.length
      = st.turns.length + count_emitted cfg st.tool_ids ls := by
  induction ls generalizing st n with
  | nil => rfl
  | cons l rest ih =>
    rw [run_lines_cons_fst, ih, process_line_turns_length, process_line_tool_ids]
    simp [count_emitted]
    omega

theorem run_lines_body_nonempty (cfg : Config) (st : ParseState) (n : Nat) (ls : List Line)
    (h : ∀ t ∈ st.turns, t.body ≠ "") :
    ∀ t ∈ (run_lines cfg st n ls).1.turns, t.body ≠ "" := by
  induction ls generalizing st n with
  | nil => exact h
  | cons l rest ih =>
    rw [run_lines_cons_fst]
    apply ih
    rcases process_line_turn_step cfg st l with ⟨_, ht, _⟩ | ⟨_, role, ts, body, hb, ht, _⟩
    · rw [ht]; exact h
    · rw [ht]
      intro t htm
      rcases List.mem_append.mp htm with h1 | h2
      · exact h t h1
      · simp only [List.mem_singleton] at h2
        subst h2
        exact hb

theorem record_excluded_mono (ids : ToolIds) (v : Json) :
    ids.excluded ⊆ (record_excluded ids v).excluded := by
  cases v with
  | str s =>
    by_cases h : s = "" <;> simp [record_excluded, h, Finset.subset_insert]
  | null => exact Finset.Subset.refl _
  | bool b => exact Finset.Subset.refl _
  | int n => exact Finset.Subset.refl _
  | num lit => exact Finset.Subset.refl _
  | arr xs => exact Finset.Subset.refl _
  | obj fs => exact Finset.Subset.refl _

theorem record_included_excluded (ids : ToolIds) (v : Json) :
    (record_included ids v).excluded = ids.excluded := by
  cases v with
  | str s => by_cases h : s = "" <;> simp [record_included, h]
  | null => rfl
  | bool b => rfl
  | int n => rfl
  | num lit => rfl
  | arr xs => rfl
  | obj fs => rfl

theorem tool_use_step_excluded_mono (cfg : Config) (acc : List String × ToolIds)
    (fields : List (String × Json)) :
    acc.2.excluded ⊆ (tool_use_step cfg acc fields).2.excluded := by
  unfold tool_use_step
  by_cases h0 : cfg.include_tools
  · simp only [h0, if_true]
    by_cases h1 : cfg.only_tools ≠ ∅ ∧
      normalize_tool_name (py_str (jget_default fields "name" (.str "unknown_tool")))
        ∉ cfg.only_tools
    · rw [if_pos h1]
      exact record_excluded_mono _ _
    · rw [if_neg h1]
      by_cases h2 : normalize_tool_name (py_str (jget_default fields "name"
        (.str "unknown_tool"))) ∈ cfg.excluded_tools
      · rw [if_pos h2]
        exact record_excluded_mono _ _
      · rw [if_neg h2]
        simp only [record_included_excluded]
        exact Finset.Subset.refl _
  · simp [h0]

theorem tool_result_step_ids (cfg : Config) (acc : List String × ToolIds)
    (fields : List (String × Json)) :
    (tool_result_step cfg acc fields).2 = acc.2 := by
  unfold tool_result_step
  by_cases h0 : cfg.include_tools
  · simp only [h0, if_true]
    by_cases h1 : ref_in_excluded acc.2 (jget fields "tool_use_id") = true
    · rw [if_pos h1]
    · rw [if_neg h1]
      by_cases h2 : cfg.only_tools ≠ ∅ ∧ ¬ ref_in_included acc.2 (jget fields "tool_use_id") = true
      · rw [if_pos h2]
      · rw [if_neg h2]
  · simp [h0]

theorem extract_body_item_excluded_mono (cfg : Config) (acc : List String × ToolIds)
    (item : Json) :
    acc.2.excluded ⊆ (extract_body_item cfg acc item).2.excluded := by
  unfold extract_body_item
  repeat' split
  all_goals try simp only [tool_result_step_ids]
  all_goals
    first
      | exact Finset.Subset.refl _
      | exact tool_use_step_excluded_mono _ _ _

theorem extract_body_items_excluded_mono (cfg : Config) (acc : List String × ToolIds)
    (items : List Json) :
    acc.2.excluded ⊆ (extract_body_items cfg acc items).2.excluded := by
  induction items generalizing acc with
  | nil => exact Finset.Subset.refl _
  | cons it rest ih =>
    exact (extract_body_item_excluded_mono cfg acc it).trans (ih _)

theorem extract_body_excluded_mono (cfg : Config) (ids : ToolIds) (content : Json) :
    ids.excluded ⊆ (extract_body cfg ids content).2.excluded := by
  cases content with
  | arr items => exact extract_body_items_excluded_mono cfg ([], ids) items
  | str s => exact Finset.Subset.refl _
  | null => exact Finset.Subset.refl _
  | bool b => exact Finset.Subset.refl _
  | int n => exact Finset.Subset.refl _
  | num lit => exact Finset.Subset.refl _
  | obj fs => exact Finset.Subset.refl _

theorem ids_step_excluded_mono (cfg : Config) (ids : ToolIds) (l : Line) :
    ids.excluded ⊆ (ids_step cfg ids l).excluded := by
  cases l with
  | blank => exact Finset.Subset.refl _
  | malformed => exact Finset.Subset.refl _
  | ok event =>
    by_cases hg : event_type_is_turn event
    · cases hm : message_obj event with
      | none => simp [ids_step, hg, hm]
      | some msg =>
        simp only [ids_step, hg, if_true, hm]
        exact extract_body_excluded_mono cfg ids (jget msg "content")
    · simp [ids_step, hg]

theorem run_lines_excluded_mono (cfg : Config) (st : ParseState) (n : Nat) (ls : List Line) :
    st.tool_ids.excluded ⊆ (run_lines cfg st n ls).1.tool_ids.excluded := by
  induction ls generalizing st n with
  | nil => exact Finset.Subset.refl _
  | cons l rest ih =>
    rw [run_lines_cons_fst]
    refine Finset.Subset.trans ?_ (ih _ _)
    rw [process_line_tool_ids]
    exact ids_step_excluded_mono cfg st.tool_ids l

/-! ### Usage-summation algebra -/

theorem lookup0_upd_add (m : List (String × Int)) (k0 : String) (v : Int) (k : String) :
    lookup0 (upd_add m k0 v) k = lookup0 m k + (if k0 = k then v else 0) := by
  induction m with
  | nil => by_cases h : k0 = k <;> simp [upd_add, lookup0, h]
  | cons p rest ih =>
    obtain ⟨k1, v1⟩ := p
    by_cases h1 : k1 = k0
    · subst h1
      by_cases h2 : k1 = k <;> simp [upd_add, lookup0, h2]
    · by_cases h2 : k1 = k
      · subst h2
        simp [upd_add, lookup0, h1, Ne.symm h1, ih]
      · simp [upd_add, lookup0, h1, h2, ih]

theorem upd_add_snd_sum (m : List (String × Nat)) (k : String) (v : Nat) :
    ((upd_add m k v).map Prod.snd).sum = (m.map Prod.snd).sum + v := by
  induction m with
  | nil => simp [upd_add]
  | cons p rest ih =>
    obtain ⟨k1, v1⟩ := p
    by_cases h : k1 = k <;> simp [upd_add, h, ih] <;> omega

theorem leaf_total_obj (k pre : String) (fields : List (String × Json)) :
    leaf_total k pre (.obj fields) = fields_leaf_total k pre fields := rfl

theorem leaf_total_int (k pre : String) (n : Int) :
    leaf_total k pre (.int n) = if pre = k then n else 0 := by
  by_cases h : pre = k <;> simp [leaf_total, usage_leaves, h]

theorem fields_leaf_total_cons (k pre k0 : String) (v : Json) (rest : List (String × Json)) :
    fields_leaf_total k pre ((k0, v) :: rest)
      = leaf_total k (dotted_key pre k0) v + fields_leaf_total k pre rest := by
  simp [fields_leaf_total, leaf_total, usage_leaves_fields, List.filter_append]

theorem usage_lookup_aux (N : Nat) :
    (∀ (pre : String) (value : Json), sizeOf value ≤ N →
      ∀ (counts : List (String × Int)) (k : String),
        lookup0 (add_usage pre value counts) k = lookup0 counts k + leaf_total k pre value)
  ∧ (∀ (pre : String) (fs : List (String × Json)), sizeOf fs ≤ N →
      ∀ (counts : List (String × Int)) (k : String),
        lookup0 (add_usage_fields pre fs counts) k
          = lookup0 counts k + fields_leaf_total k pre fs) := by
  induction N with
  | zero =>
    constructor
    · intro pre value hv
      exfalso
      cases value <;> simp at hv
    · intro pre fs hf
      exfalso
      cases fs <;> simp at hf
  | succ N ih =>
    constructor
    · intro pre value hv counts k
      cases value with
      | null => simp [add_usage, leaf_total, usage_leaves]
      | bool b => simp [add_usage, leaf_total, usage_leaves]
      | int n =>
        rw [show add_usage pre (.int n) counts = upd_add counts pre n from rfl]
        rw [lookup0_upd_add, leaf_total_int]
      | num lit => simp [add_usage, leaf_total, usage_leaves]
      | str s => simp [add_usage, leaf_total, usage_leaves]
      | arr xs => simp [add_usage, leaf_total, usage_leaves]
      | obj fields =>
        rw [show add_usage pre (.obj fields) counts = add_usage_fields pre fields counts
          from rfl]
        rw [ih.2 pre fields (by simp at hv; omega) counts k, leaf_total_obj]
    · intro pre fs hf counts k
      cases fs with
      | nil => simp [add_usage_fields, fields_leaf_total, usage_leaves_fields]
      | cons p rest =>
        obtain ⟨k0, v⟩ := p
        rw [show add_usage_fields pre ((k0, v) :: rest) counts
          = add_usage_fields pre rest (add_usage (dotted_key pre k0) v counts) from rfl]
        rw [ih.2 pre rest (by simp at hf; omega) (add_usage (dotted_key pre k0) v counts) k]
        rw [ih.1 (dotted_key pre k0) v (by simp at hf; omega) counts k]
        rw [fields_leaf_total_cons]
        ring

theorem add_usage_lookup (pre : String) (value : Json) (counts : List (String × Int))
    (k : String) :
    lookup0 (add_usage pre value counts) k = lookup0 counts k + leaf_total k pre value :=
  (usage_lookup_aux (sizeOf value)).1 pre value le_rfl counts k

theorem run_lines_usage_records (cfg : Config) (st : ParseState) (n : Nat) (ls : List Line) :
    (run_lines cfg st n ls).1.usage_records = st.usage_records + count_usage_events ls := by
  induction ls generalizing st n with
  | nil => simp [run_lines, count_usage_events]
  | cons l rest ih =>
    rw [run_lines_cons_fst, ih, process_line_usage_records]
    simp [count_usage_events, List.countP_cons]
    omega

theorem run_lines_usage_lookup (cfg : Config) (st : ParseState) (n : Nat) (ls : List Line)
    (k : String) :
    lookup0 (run_lines cfg st n ls).1.usage_counts k
      = lookup0 st.usage_counts k + (ls.map (line_leaf_total k)).sum := by
  induction ls generalizing st n with
  | nil => simp [run_lines]
  | cons l rest ih =>
    rw [run_lines_cons_fst, ih, process_line_usage_counts]
    cases hu : line_usage l with
    | none => simp [line_leaf_total, hu]
    | some u =>
      simp only [line_leaf_total, hu, add_usage_lookup, List.map_cons, List.sum_cons]
      ring

/-! ### Metadata collection, malformed-line tolerance, and turn invariants -/

theorem run_lines_session_ids (cfg : Config) (st : ParseState) (n : Nat) (ls : List Line) :
    (run_lines cfg st n ls).1.session_ids = scalar_set "sessionId" st.session_ids ls := by
  induction ls generalizing st n with
  | nil => rfl
  | cons l rest ih =>
    rw [run_lines_cons_fst, ih, process_line_session_ids]
    cases l <;> rfl

theorem run_lines_versions (cfg : Config) (st : ParseState) (n : Nat) (ls : List Line) :
    (run_lines cfg st n ls).1.versions = scalar_set "version" st.versions ls := by
  induction ls generalizing st n with
  | nil => rfl
  | cons l rest ih =>
    rw [run_lines_cons_fst, ih, process_line_versions]
    cases l <;> rfl

theorem run_lines_cwd_values (cfg : Config) (st : ParseState) (n : Nat) (ls : List Line) :
    (run_lines cfg st n ls).1.cwd_values = scalar_set "cwd" st.cwd_values ls := by
  induction ls generalizing st n with
  | nil => rfl
  | cons l rest ih =>
    rw [run_lines_cons_fst, ih, process_line_cwd_values]
    cases l <;> rfl

theorem run_lines_branches (cfg : Config) (st : ParseState) (n : Nat) (ls : List Line) :
    (run_lines cfg st n ls).1.branches = scalar_set "gitBranch" st.branches ls := by
  induction ls generalizing st n with
  | nil => rfl
  | cons l rest ih =>
    rw [run_lines_cons_fst, ih, process_line_branches]
    cases l <;> rfl

theorem run_lines_models (cfg : Config) (st : ParseState) (n : Nat) (ls : List Line) :
    (run_lines cfg st n ls).1.models = model_set st.models ls := by
  induction ls generalizing st n with
  | nil => rfl
  | cons l rest ih =>
    rw [run_lines_cons_fst, ih, process_line_models]
    cases l with
    | blank => rfl
    | malformed => rfl
    | ok event =>
      by_cases hg : event_type_is_turn event
      · cases hm : message_obj event with
        | none => simp [model_set, hg, hm]
        | some msg => simp [model_set, hg, hm]
      · simp [model_set, hg]

theorem run_lines_filter_well_formed (cfg : Config) (st : ParseState) (m n : Nat)
    (ls : List Line) :
    (run_lines cfg st m (ls.filter well_formed)).1 = (run_lines cfg st n ls).1 := by
  induction ls generalizing st m n with
  | nil => rfl
  | cons l rest ih =>
    cases l with
    | blank =>
      rw [show (Line.blank :: rest).filter well_formed
        = Line.blank :: rest.filter well_formed from rfl]
      rw [run_lines_cons_fst, run_lines_cons_fst]
      exact ih _ _ _
    | malformed =>
      rw [show (Line.malformed :: rest).filter well_formed = rest.filter well_formed from rfl]
      rw [run_lines_cons_fst]
      exact ih _ _ _
    | ok event =>
      rw [show (Line.ok event :: rest).filter well_formed
        = Line.ok event :: rest.filter well_formed from rfl]
      rw [run_lines_cons_fst, run_lines_cons_fst]
      exact ih _ _ _

theorem coerce_text_content_eq (fields : List (String × Json)) :
    coerce_text_content fields = (findField fields "content").map coerce_text := by
  induction fields with
  | nil => rfl
  | cons p rest ih =>
    obtain ⟨k, v⟩ := p
    by_cases h : k = "content" <;> simp [coerce_text_content, findField, h, ih]

theorem coerce_text_list_map (xs : List Json) :
    coerce_text_list xs = xs.map coerce_text := by
  induction xs with
  | nil => rfl
  | cons x rest ih => simp [coerce_text_list, ih]

theorem append_right_ne_empty (a b : String) (hb : b.data ≠ []) : a ++ b ≠ "" := by
  intro h
  have hd : (a ++ b).data = [] := by rw [h]
  rw [String.data_append] at hd
  exact hb (List.append_eq_nil.mp hd).2

theorem push_if_parts_cases (parts : List String) (t block : String)
    (hb : t ≠ "" → block ≠ "") :
    push_if parts (t ≠ "") block = parts
    ∨ ∃ s, s ≠ "" ∧ push_if parts (t ≠ "") block = parts ++ [s] := by
  by_cases h : t = ""
  · left
    simp [push_if, h]
  · right
    exact ⟨block, hb h, by simp [push_if, h]⟩

theorem tool_use_step_parts (cfg : Config) (acc : List String × ToolIds)
    (fields : List (String × Json)) :
    (tool_use_step cfg acc fields).1 = acc.1
    ∨ ∃ s, s ≠ "" ∧ (tool_use_step cfg acc fields).1 = acc.1 ++ [s] := by
  unfold tool_use_step
  by_cases h0 : cfg.include_tools
  · simp only [h0, if_true]
    by_cases h1 : cfg.only_tools ≠ ∅ ∧
      normalize_tool_name (py_str (jget_default fields "name" (.str "unknown_tool")))
        ∉ cfg.only_tools
    · rw [if_pos h1]
      exact Or.inl rfl
    · rw [if_neg h1]
      by_cases h2 : normalize_tool_name (py_str (jget_default fields "name"
        (.str "unknown_tool"))) ∈ cfg.excluded_tools
      · rw [if_pos h2]
        exact Or.inl rfl
      · rw [if_neg h2]
        refine Or.inr ⟨_, ?_, rfl⟩
        exact append_right_ne_empty _ "\n```" (by decide)
  · simp [h0]

theorem tool_result_step_parts (cfg : Config) (acc : List String × ToolIds)
    (fields : List (String × Json)) :
    (tool_result_step cfg acc fields).1 = acc.1
    ∨ ∃ s, s ≠ "" ∧ (tool_result_step cfg acc fields).1 = acc.1 ++ [s] := by
  unfold tool_result_step
  by_cases h0 : cfg.include_tools
  · simp only [h0, if_true]
    by_cases h1 : ref_in_excluded acc.2 (jget fields "tool_use_id") = true
    · rw [if_pos h1]
      exact Or.inl rfl
    · rw [if_neg h1]
      by_cases h2 : cfg.only_tools ≠ ∅ ∧
        ¬ ref_in_included acc.2 (jget fields "tool_use_id") = true
      · rw [if_pos h2]
        exact Or.inl rfl
      · rw [if_neg h2]
        exact push_if_parts_cases acc.1 (pyStrip (coerce_text (jget fields "content")))
          ("```tool_result\n" ++ pyStrip (coerce_text (jget fields "content")) ++ "\n```")
          (fun _ => append_right_ne_empty _ "\n```" (by decide))
  · simp [h0]

theorem extract_body_item_parts (cfg : Config) (acc : List String × ToolIds) (item : Json) :
    (extract_body_item cfg acc item).1 = acc.1
    ∨ ∃ s, s ≠ "" ∧ (extract_body_item cfg acc item).1 = acc.1 ++ [s] := by
  unfold extract_body_item
  repeat' split
  all_goals
    first
      | exact tool_use_step_parts cfg acc _
      | exact tool_result_step_parts cfg acc _
      | exact Or.inl rfl
      | exact push_if_parts_cases acc.1 _ _ (fun h => h)
      | exact push_if_parts_cases acc.1 _ _
          (fun _ => append_right_ne_empty _ "\n```" (by decide))

theorem extract_body_items_parts_nonempty (cfg : Config) (acc : List String × ToolIds)
    (items : List Json) (hp : ∀ x ∈ acc.1, x ≠ "") :
    ∀ x ∈ (extract_body_items cfg acc items).1, x ≠ "" := by
  induction items generalizing acc with
  | nil => exact hp
  | cons it rest ih =>
    refine ih (extract_body_item cfg acc it) ?_
    rcases extract_body_item_parts cfg acc it with h | ⟨s, hs, h⟩
    · rw [h]; exact hp
    · rw [h]
      intro x hx
      rcases List.mem_append.mp hx with h1 | h2
      · exact hp x h1
      · simp only [List.mem_singleton] at h2
        subst h2
        exact hs

theorem process_line_turn_invariant (cfg : Config) (st : ParseState) (l : Line)
    (hidx : ∀ i (h : i < st.turns.length), (st.turns.get ⟨i, h⟩).index = i + 1)
    (hsum : ((st.role_counts.map Prod.snd).sum : Nat) = st.turns.length) :
    (∀ i (h : i < (process_line cfg st l).turns.length),
        ((process_line cfg st l).turns.get ⟨i, h⟩).index = i + 1)
    ∧ (((process_line cfg st l).role_counts.map Prod.snd).sum : Nat)
        = (process_line cfg st l).turns.length := by
  rcases process_line_turn_step cfg st l with ⟨_, ht, hr⟩ | ⟨_, role, ts, body, hb, ht, hr⟩
  · rw [ht, hr]
    exact ⟨hidx, hsum⟩
  · constructor
    · rw [ht]
      intro i h
      have hlt : i < st.turns.length + 1 := by
        simpa using h
      by_cases hi : i < st.turns.length
      · have : (st.turns ++ [(⟨st.turns.length + 1, role, ts, body⟩ : Turn)]).get ⟨i, h⟩
            = st.turns.get ⟨i, hi⟩ := by
          simp [List.get_eq_getElem, List.getElem_append_left hi]
        rw [this]
        exact hidx i hi
      · have hieq : i = st.turns.length := by omega
        subst hieq
        simp [List.get_eq_getElem]
    · rw [ht, hr, upd_add_snd_sum, hsum]
      simp

theorem run_lines_turn_invariant (cfg : Config) (st : ParseState) (n : Nat) (ls : List Line)
    (hidx : ∀ i (h : i < st.turns.length), (st.turns.get ⟨i, h⟩).index = i + 1)
    (hsum : ((st.role_counts.map Prod.snd).sum : Nat) = st.turns.length) :
    (∀ i (h : i < (run_lines cfg st n ls).1.turns.length),
        ((run_lines cfg st n ls).1.turns.get ⟨i, h⟩).index = i + 1)
    ∧ (((run_lines cfg st n ls).1.role_counts.map Prod.snd).sum : Nat)
        = (run_lines cfg st n ls).1.turns.length := by
  induction ls generalizing st n with
  | nil => exact ⟨hidx, hsum⟩
  | cons l rest ih =>
    rw [run_lines_cons_fst]
    obtain ⟨h1, h2⟩ := process_line_turn_invariant cfg st l hidx hsum
    exact ih (process_line cfg st l) (n + 1) h1 h2

/-! ### The claims -/

/-- C1: for every input stream, a turn is emitted for an event exactly when
the event's type is `user` or `assistant`, its message is a mapping, and the
body extracted from the message's content (after thinking/tool filtering,
with the correlation sets threaded in stream order) is non-empty; events with
empty extracted bodies emit nothing, so the number of emitted turns equals
the number of `user`/`assistant` events with non-empty filtered bodies, and
no emitted turn has an empty body. -/
theorem C1_turn_emission (cfg : Config) (lines : List Line) :
    (iter_turns cfg lines).1.turns.length = count_emitted cfg init_state.tool_ids lines
    ∧ ((iter_turns cfg lines).1.turns.all (fun t => !(t.body == ""))) = true := by
  constructor
  · simpa [iter_turns, init_state] using run_lines_turns_length cfg init_state 1 lines
  · rw [List.all_eq_true]
    intro t ht
    have h := run_lines_body_nonempty cfg init_state 1 lines
      (fun x hx => absurd hx (by simp [init_state])) t ht
    simpa using h

/-- C4: usage summation walks the usage mapping recursively — mapping entries
recurse under the extended dotted key, boolean leaves contribute nothing,
integer leaves are added at their full dotted path, and every other leaf is
skipped without error.  The per-key totals are characterised by the integer
leaves (`usage_leaves`), and the usage-record counter increments exactly once
per processed message carrying a usage mapping, independent of whether that
mapping contains numeric leaves. -/
theorem C4_usage_walk :
    (∀ (pre : String) (fields : List (String × Json)) (counts : List (String × Int)),
        add_usage pre (.obj fields) counts = add_usage_fields pre fields counts)
    ∧ (∀ (pre k : String) (v : Json) (rest : List (String × Json))
          (counts : List (String × Int)),
        add_usage_fields pre ((k, v) :: rest) counts
          = add_usage_fields pre rest (add_usage (dotted_key pre k) v counts))
    ∧ (∀ (pre : String) (b : Bool) (counts : List (String × Int)),
        add_usage pre (.bool b) counts = counts)
    ∧ (∀ (pre : String) (n : Int) (counts : List (String × Int)),
        add_usage pre (.int n) counts = upd_add counts pre n)
    ∧ (∀ (pre s : String) (counts : List (String × Int)),
        add_usage pre (.str s) counts = counts)
    ∧ (∀ (pre lit : String) (counts : List (String × Int)),
        add_usage pre (.num lit) counts = counts)
    ∧ (∀ (pre : String) (counts : List (String × Int)),
        add_usage pre .null counts = counts)
    ∧ (∀ (pre : String) (xs : List Json) (counts : List (String × Int)),
        add_usage pre (.arr xs) counts = counts)
    ∧ (∀ (pre : String) (value : Json) (counts : List (String × Int)) (k : String),
        lookup0 (add_usage pre value counts) k = lookup0 counts k + leaf_total k pre value)
    ∧ (∀ (cfg : Config) (lines : List Line),
        (iter_turns cfg lines).1.usage_records = count_usage_events lines) := by
  refine ⟨fun pre fields counts => rfl, fun pre k v rest counts => rfl,
    fun pre b counts => rfl, fun pre n counts => rfl, fun pre s counts => rfl,
    fun pre lit counts => rfl, fun pre counts => rfl, fun pre xs counts => rfl,
    add_usage_lookup, ?_⟩
  intro cfg lines
  simpa [iter_turns, init_state] using run_lines_usage_records cfg init_state 1 lines

/-- C5: every malformed line is reported on the error channel by its 1-based
line number, in stream order, and malformed lines contribute nothing to the
final state — removing them leaves every field of the result unchanged, so
the valid turns around a malformed line survive in order. -/
theorem C5_malformed_lines (cfg : Config) (lines : List Line) :
    (iter_turns cfg lines).2 = malformed_line_numbers 1 lines
    ∧ (iter_turns cfg (lines.filter well_formed)).1 = (iter_turns cfg lines).1 :=
  ⟨run_lines_snd cfg init_state 1 lines,
   run_lines_filter_well_formed cfg init_state 1 1 lines⟩

/-- C6 counterexample: the claim says the message's `model` is collected
regardless of event type, but for a `system` event carrying a message with
model `"m1"` the run collects nothing into `models` (while `sessionId` from
the same event is collected): the script reads `model` only after the
`user`/`assistant` type gate. -/
theorem C6_model_not_collected :
    (iter_turns cfg_plain [.ok c6_event]).1.models = ∅
    ∧ (iter_turns cfg_plain [.ok c6_event]).1.session_ids = {"s1"} := by
  constructor <;> rfl

/-- C6 as amended: the four event-level scalar fields (`sessionId`,
`version`, `cwd`, `gitBranch`) are collected for every parsed event
regardless of event type and of content emptiness; `model`, however, is
collected exactly from `user`/`assistant` events whose message is a mapping
(still regardless of content emptiness). -/
theorem C6_scalar_collection (cfg : Config) (lines : List Line) :
    (iter_turns cfg lines).1.session_ids = scalar_set "sessionId" ∅ lines
    ∧ (iter_turns cfg lines).1.versions = scalar_set "version" ∅ lines
    ∧ (iter_turns cfg lines).1.cwd_values = scalar_set "cwd" ∅ lines
    ∧ (iter_turns cfg lines).1.branches = scalar_set "gitBranch" ∅ lines
    ∧ (iter_turns cfg lines).1.models = model_set ∅ lines :=
  ⟨run_lines_session_ids cfg init_state 1 lines,
   run_lines_versions cfg init_state 1 lines,
   run_lines_cwd_values cfg init_state 1 lines,
   run_lines_branches cfg init_state 1 lines,
   run_lines_models cfg init_state 1 lines⟩

/-- C9: permuting the input lines leaves the per-dotted-key usage totals and
the usage-record count unchanged. -/
theorem C9_usage_order_independence (cfg : Config) (l1 l2 : List Line) (h : l1.Perm l2) :
    (∀ k, lookup0 (iter_turns cfg l1).1.usage_counts k
        = lookup0 (iter_turns cfg l2).1.usage_counts k)
    ∧ (iter_turns cfg l1).1.usage_records = (iter_turns cfg l2).1.usage_records := by
  constructor
  · intro k
    rw [show iter_turns cfg l1 = run_lines cfg init_state 1 l1 from rfl]
    rw [show iter_turns cfg l2 = run_lines cfg init_state 1 l2 from rfl]
    rw [run_lines_usage_lookup, run_lines_usage_lookup]
    congr 1
    exact List.Perm.sum_eq (h.map _)
  · rw [show iter_turns cfg l1 = run_lines cfg init_state 1 l1 from rfl]
    rw [show iter_turns cfg l2 = run_lines cfg init_state 1 l2 from rfl]
    rw [run_lines_usage_records, run_lines_usage_records]
    unfold count_usage_events
    rw [h.countP_eq]

/-- C9 witness: a concrete two-line stream and its swap. -/
theorem C9_usage_order_independence_witness :
    (∀ k, lookup0 (iter_turns cfg_plain [.ok demo_user_event, .blank]).1.usage_counts k
        = lookup0 (iter_turns cfg_plain [.blank, .ok demo_user_event]).1.usage_counts k)
    ∧ (iter_turns cfg_plain [.ok demo_user_event, .blank]).1.usage_records
        = (iter_turns cfg_plain [.blank, .ok demo_user_event]).1.usage_records :=
  C9_usage_order_independence cfg_plain _ _
    (List.Perm.swap Line.blank (Line.ok demo_user_event) [])

/-- C10: after a complete parse the i-th turn (0-based) carries sequence
index i+1, and the role-count values sum to the number of emitted turns. -/
theorem C10_turn_invariants (cfg : Config) (lines : List Line) :
    (∀ i (h : i < (iter_turns cfg lines).1.turns.length),
        ((iter_turns cfg lines).1.turns.get ⟨i, h⟩).index = i + 1)
    ∧ (((iter_turns cfg lines).1.role_counts.map Prod.snd).sum : Nat)
        = (iter_turns cfg lines).1.turns.length :=
  run_lines_turn_invariant cfg init_state 1 lines
    (fun i h => absurd h (by simp [init_state])) rfl

/-- C10 witness: the first turn of the demo stream has index 1, and the role
counts of the demo stream sum to its turn count. -/
theorem C10_turn_invariants_witness :
    ((iter_turns cfg_plain demo_lines).1.turns.get ⟨0, by decide⟩).index = 0 + 1
    ∧ (((iter_turns cfg_plain demo_lines).1.role_counts.map Prod.snd).sum : Nat)
        = (iter_turns cfg_plain demo_lines).1.turns.length :=
  ⟨(C10_turn_invariants cfg_plain demo_lines).1 0 (by decide),
   (C10_turn_invariants cfg_plain demo_lines).2⟩

/-- C2: under tool inclusion, a `tool_use` item whose normalized name is
filtered out by name (absent from a non-empty allow-list, or present in the
deny-list) contributes no fragment and records its non-empty identifier in
the excluded set; the excluded set only ever grows over the rest of the
stream; and a `tool_result` item whose referenced identifier is in the
excluded set contributes nothing and changes nothing — so the result paired
with an excluded use is dropped no matter how far downstream it appears. -/
theorem C2_tool_use_exclusion (cfg : Config) (name id : String) (input : Json)
    (hinc : cfg.include_tools = true) (hid : id ≠ "")
    (hfilt : (cfg.only_tools ≠ ∅ ∧ normalize_tool_name name ∉ cfg.only_tools)
      ∨ normalize_tool_name name ∈ cfg.excluded_tools) :
    (∀ (parts : List String) (ids : ToolIds),
        extract_body_item cfg (parts, ids) (tool_use_item name id input)
          = (parts, { ids with excluded := insert id ids.excluded }))
    ∧ (∀ (st : ParseState) (n : Nat) (ls : List Line),
        st.tool_ids.excluded ⊆ (run_lines cfg st n ls).1.tool_ids.excluded)
    ∧ (∀ (parts : List String) (ids : ToolIds) (c : Json), id ∈ ids.excluded →
        extract_body_item cfg (parts, ids) (tool_result_item id c) = (parts, ids)) := by
  refine ⟨?_, fun st n ls => run_lines_excluded_mono cfg st n ls, ?_⟩
  · intro parts ids
    have e1 : extract_body_item cfg (parts, ids) (tool_use_item name id input)
        = tool_use_step cfg (parts, ids)
            [("type", .str "tool_use"), ("name", .str name), ("id", .str id),
             ("input", input)] := rfl
    have ename : py_str (jget_default
        [("type", Json.str "tool_use"), ("name", Json.str name), ("id", Json.str id),
         ("input", input)] "name" (.str "unknown_tool")) = name := rfl
    have eid : jget
        [("type", Json.str "tool_use"), ("name", Json.str name), ("id", Json.str id),
         ("input", input)] "id" = .str id := rfl
    rw [e1]
    unfold tool_use_step
    rw [if_pos hinc]
    simp only [ename, eid]
    by_cases h1 : cfg.only_tools ≠ ∅ ∧ normalize_tool_name name ∉ cfg.only_tools
    · rw [if_pos h1]
      simp [record_excluded, hid]
    · have h2 : normalize_tool_name name ∈ cfg.excluded_tools := hfilt.resolve_left h1
      rw [if_neg h1, if_pos h2]
      simp [record_excluded, hid]
  · intro parts ids c hmem
    have e2 : extract_body_item cfg (parts, ids) (tool_result_item id c)
        = tool_result_step cfg (parts, ids)
            [("type", .str "tool_result"), ("tool_use_id", .str id), ("content", c)] := rfl
    have eref : jget [("type", Json.str "tool_result"), ("tool_use_id", Json.str id),
        ("content", c)] "tool_use_id" = .str id := rfl
    rw [e2]
    unfold tool_result_step
    rw [if_pos hinc]
    simp only [eref]
    rw [if_pos (by simpa [ref_in_excluded] using hmem)]

/-- C2 witness: with tools included and `Read` deny-listed, a `tool:Read`
use records its id, and nothing is appended. -/
theorem C2_tool_use_exclusion_witness :
    extract_body_item cfg_deny ([], ⟨∅, ∅⟩) (tool_use_item "tool:Read" "id1" Json.null)
      = ([], ⟨insert "id1" ∅, ∅⟩) :=
  (C2_tool_use_exclusion cfg_deny "tool:Read" "id1" Json.null rfl (by decide)
    (Or.inr (by decide))).1 [] ⟨∅, ∅⟩

/-- C3: a `tool_result` whose referenced identifier was recorded by no prior
`tool_use` decision is excluded when an allow-list is active and rendered
otherwise (under tool inclusion); and a `tool_result` whose identifier is in
the excluded set is always excluded. -/
theorem C3_unrecorded_tool_result (cfg : Config) (id : String) (c : Json)
    (hinc : cfg.include_tools = true) (parts : List String) (ids : ToolIds)
    (hex : id ∉ ids.excluded) (hin : id ∉ ids.included) :
    (cfg.only_tools ≠ ∅ →
        extract_body_item cfg (parts, ids) (tool_result_item id c) = (parts, ids))
    ∧ (cfg.only_tools = ∅ →
        extract_body_item cfg (parts, ids) (tool_result_item id c)
          = (push_if parts (pyStrip (coerce_text c) ≠ "")
              ("```tool_result\n" ++ pyStrip (coerce_text c) ++ "\n```"), ids))
    ∧ (∀ (parts2 : List String) (ids2 : ToolIds), id ∈ ids2.excluded →
        extract_body_item cfg (parts2, ids2) (tool_result_item id c) = (parts2, ids2)) := by
  have e2 : ∀ (p : List String) (i : ToolIds),
      extract_body_item cfg (p, i) (tool_result_item id c)
        = tool_result_step cfg (p, i)
            [("type", .str "tool_result"), ("tool_use_id", .str id), ("content", c)] :=
    fun p i => rfl
  have eref : jget [("type", Json.str "tool_result"), ("tool_use_id", Json.str id),
      ("content", c)] "tool_use_id" = .str id := rfl
  have econt : jget [("type", Json.str "tool_result"), ("tool_use_id", Json.str id),
      ("content", c)] "content" = c := rfl
  refine ⟨?_, ?_, ?_⟩
  · intro honly
    rw [e2]
    unfold tool_result_step
    rw [if_pos hinc]
    simp only [eref]
    rw [if_neg (by simp [ref_in_excluded, hex])]
    rw [if_pos ⟨honly, by simp [ref_in_included, hin]⟩]
  · intro honly
    rw [e2]
    unfold tool_result_step
    rw [if_pos hinc]
    simp only [eref, econt]
    rw [if_neg (by simp [ref_in_excluded, hex])]
    rw [if_neg (by simp [honly])]
  · intro parts2 ids2 hmem
    rw [e2]
    unfold tool_result_step
    rw [if_pos hinc]
    simp only [eref]
    rw [if_pos (by simpa [ref_in_excluded] using hmem)]

/-- C3 witness: an unrecorded result id is dropped under an active allow-list
and rendered when no allow-list is active. -/
theorem C3_unrecorded_tool_result_witness :
    extract_body_item cfg_allow ([], ⟨∅, ∅⟩) (tool_result_item "id9" (Json.str "out"))
      = ([], ⟨∅, ∅⟩)
    ∧ extract_body_item cfg_deny ([], ⟨∅, ∅⟩) (tool_result_item "id9" (Json.str "out"))
      = (push_if [] (pyStrip (coerce_text (Json.str "out")) ≠ "")
          ("```tool_result\n" ++ pyStrip (coerce_text (Json.str "out")) ++ "\n```"), ⟨∅, ∅⟩) :=
  ⟨(C3_unrecorded_tool_result cfg_allow "id9" (Json.str "out") rfl [] ⟨∅, ∅⟩ (by decide)
      (by decide)).1 (by decide),
   (C3_unrecorded_tool_result cfg_deny "id9" (Json.str "out") rfl [] ⟨∅, ∅⟩ (by decide)
      (by decide)).2.1 rfl⟩

/-- C7 counterexample: for content `[["a", "b"]]` the emitted body joins the
nested fragments with a single newline, not with a blank line as the claim
asserts for every nesting depth. -/
theorem C7_blank_line_counterexample :
    (extract_body cfg_plain ⟨∅, ∅⟩ c7_content).1 = "a\nb"
    ∧ (extract_body cfg_plain ⟨∅, ∅⟩ c7_content).1 ≠ "a\n\nb" := by
  constructor
  · decide
  · decide

/-- C7 as amended: inside `coerce_text`, the elements of a sequence are
recursively normalized and the results whose strip is non-empty are joined
with a single newline; only the top-level `extract_body` joins its collected
fragments — each of which is non-empty — with a blank line, and then trims. -/
theorem C7_sequence_joins (cfg : Config) (ids : ToolIds) (xs : List Json) :
    coerce_text (.arr xs)
      = String.intercalate "\n" ((xs.map coerce_text).filter (fun c => pyStrip c ≠ ""))
    ∧ (extract_body cfg ids (.arr xs)).1
      = pyStrip (String.intercalate "\n\n" (extract_body_items cfg ([], ids) xs).1)
    ∧ ((extract_body_items cfg ([], ids) xs).1.all (fun s => !(s == ""))) = true := by
  refine ⟨?_, rfl, ?_⟩
  · calc coerce_text (.arr xs)
        = String.intercalate "\n"
            ((coerce_text_list xs).filter (fun c => pyStrip c ≠ "")) := rfl
      _ = String.intercalate "\n"
            ((xs.map coerce_text).filter (fun c => pyStrip c ≠ "")) := by
          rw [coerce_text_list_map]
  · rw [List.all_eq_true]
    intro s hs
    have h := extract_body_items_parts_nonempty cfg ([], ids) xs (by simp) s hs
    simpa using h

/-- C8 counterexample: a mapping with no type tag holding both a string
`text` entry and a `content` entry normalizes to the `text` value, not to the
normalization of its `content` value — the claimed two-way rule is not the
complete decision rule. -/
theorem C8_text_key_counterexample :
    coerce_text c8_map = "hi"
    ∧ coerce_text (jget c8_fields "content") = "nested"
    ∧ ("hi" : String) ≠ "nested" :=
  ⟨rfl, rfl, by decide⟩

/-- C8 as amended: for a mapping without a recognized type tag, a string
`text` entry is returned first; otherwise the value under a present `content`
key is recursively normalized; otherwise the whole mapping is pretty-printed
as the fallback block. -/
theorem C8_mapping_normalization (fields : List (String × Json)) :
    (∀ t, find_text_string fields = some t → coerce_text (.obj fields) = t)
    ∧ (find_text_string fields = none →
        ∀ c, findField fields "content" = some c → coerce_text (.obj fields) = coerce_text c)
    ∧ (find_text_string fields = none → findField fields "content" = none →
        coerce_text (.obj fields) = json_dumps 0 (.obj fields)) := by
  have hobj : coerce_text (.obj fields)
      = match find_text_string fields with
        | some t => t
        | none =>
          match coerce_text_content fields with
          | some s => s
          | none => json_dumps 0 (.obj fields) := rfl
  refine ⟨?_, ?_, ?_⟩
  · intro t ht
    rw [hobj, ht]
  · intro hn c hc
    rw [hobj, hn, coerce_text_content_eq, hc]
    rfl
  · intro hn hc
    rw [hobj, hn, coerce_text_content_eq, hc]
    rfl

/-- C8 witness: one concrete mapping for each of the three branches. -/
theorem C8_mapping_normalization_witness :
    coerce_text (.obj [("text", Json.str "yo")]) = "yo"
    ∧ coerce_text (.obj [("content", Json.str "in")]) = coerce_text (Json.str "in")
    ∧ coerce_text (.obj [("k", Json.int 1)]) = json_dumps 0 (.obj [("k", Json.int 1)]) :=
  ⟨(C8_mapping_normalization [("text", Json.str "yo")]).1 "yo" rfl,
   (C8_mapping_normalization [("content", Json.str "in")]).2.1 rfl (Json.str "in") rfl,
   (C8_mapping_normalization [("k", Json.int 1)]).2.2 rfl rfl⟩
